import Mathlib

set_option maxRecDepth 100000

/-!
Shallow embedding of `src/xzdecoder.py` (xzindexer).

Files are modelled as `List Nat` of byte values (each < 256, stated as a
hypothesis where a proof needs it).  Python exceptions are modelled by the
`PyErr` error type of an `Except`; note that the index-marker sentinel and
out-of-range byte access are BOTH Python `IndexError`, hence a single
constructor `PyErr.indexError`, exactly as `get_block`'s `except IndexError`
cannot tell them apart.  `threading.Lock` objects are modelled by identity:
a numeric lock id; a constructor that would allocate a fresh `Lock()` is
passed an explicit fresh id.
-/

/-- Python exception kinds raised by the decoder.  `valueError` is the
`ValueError("NULL byte while reading a size field.")` that the spec calls
`MalformedVarint`; `indexError` covers both the index-marker sentinel and
out-of-range byte indexing (Python raises the same `IndexError` class for
both).  `outOfFuel` is an artefact of bounding the Python `while` loops;
every concrete evaluation below uses ample fuel so it is never reached. -/
inductive PyErr where
  | indexError
  | valueError
  | notImplementedError
  | keyError
  | typeError
  | assertionError
  | lzmaError
  | outOfFuel
  deriving DecidableEq, Repr

/-- Loop of `XZBlock._evaluate_size` (src/xzdecoder.py lines 140-152): the
list argument is the bytes after the first size byte; `i` is the Python
loop counter (starting at 1), `acc` the accumulator `size`.  Running off
the end of the span is Python indexing out of range, hence `indexError`. -/
def evalSizeLoop : Nat → Nat → List Nat → Except PyErr (Nat × Nat)
  | _, _, [] => .error .indexError
  | i, acc, x :: rest =>
    if x = 0 then .error .valueError
    else
      let acc2 := acc ||| ((x &&& 0x7F) <<< (7 * i))
      if x &&& 0x80 = 0 then .ok (acc2, i + 1)
      else evalSizeLoop (i + 1) acc2 rest

/-- The Size Decoder `XZBlock._evaluate_size` (src/xzdecoder.py lines
135-153), made explicit over the byte span and start position.  Returns the
decoded value together with the number of bytes consumed (the amount added
to `_decode_offset`). -/
def evaluate_size (data : List Nat) (off : Nat) : Except PyErr (Nat × Nat) :=
  match data[off]? with
  | none => .error .indexError
  | some b0 => evalSizeLoop 1 (b0 &&& 0x7F) (data.drop (off + 1))

/-- The standard little-endian base-128 continuation-bit encoding of an
unsigned integer, as described in spec section 4.1 and the glossary (the
encoder is not part of the repository; it is the mathematical scheme the
round-trip claim refers to): low 7 bits first, high bit set on every byte
except the last. -/
def encodeVarint (n : Nat) : List Nat :=
  if h : n < 128 then [n]
  else (n % 128 + 128) :: encodeVarint (n / 128)
  decreasing_by exact Nat.div_lt_self (by omega) (by omega)

/-- State of one `XZBlock` after `__init__` (src/xzdecoder.py lines 34-73).
`lockId` identifies the `threading.Lock` used for seek+read (`_fp_lock`). -/
structure XZBlock where
  offset : Nat
  blockCheckSize : Nat
  header : List Nat
  headerLength : Nat
  flag : Nat
  numberOfFilters : Nat
  hasCompressedSize : Bool
  hasUncompressedSize : Bool
  lockId : Nat
  deriving DecidableEq, Repr

/-- Block construction, `XZBlock.__init__` (src/xzdecoder.py lines 34-73),
over the file bytes.  Reading one byte at or past EOF makes `header[0]`
raise `IndexError`; a `0x00` size byte raises the index-marker
`IndexError`; `fp.read(header_length - 1)` returns whatever is available,
so a short file yields a short `header` and `header[1]` can raise.
`fileLock` is the `file_lock` argument; `freshLock` is the id of the
`threading.Lock()` allocated when `file_lock` is `None`. -/
def mkXZBlock (file : List Nat) (offset blockCheckSize : Nat)
    (fileLock : Option Nat) (freshLock : Nat) : Except PyErr XZBlock :=
  match file[offset]? with
  | none => .error .indexError
  | some b0 =>
    if b0 = 0 then .error .indexError
    else
      match ((file.drop offset).take (b0 * 4 + 4))[1]? with
      | none => .error .indexError
      | some flag =>
        if flag &&& 0x40 = 0 ∨ flag &&& 0x80 = 0 then .error .notImplementedError
        else .ok {
          offset := offset
          blockCheckSize := blockCheckSize
          header := (file.drop offset).take (b0 * 4 + 4)
          headerLength := b0 * 4 + 4
          flag := flag
          numberOfFilters := flag &&& 0x03
          hasCompressedSize := true
          hasUncompressedSize := true
          lockId := fileLock.getD freshLock }

/-- Accessor `XZBlock.compressed_size` (src/xzdecoder.py lines 155-161):
the first size field decoded at `_decode_offset = 2`. -/
def XZBlock.compressed_size (b : XZBlock) : Except PyErr Nat :=
  (evaluate_size b.header 2).map Prod.fst

/-- Accessor `XZBlock.uncompressed_size` (src/xzdecoder.py lines 171-178):
the second size field, decoded where the first one left `_decode_offset`
(accessing it first still decodes `compressed_size` first, via the
`self._uncompressed_size = self.compressed_size` line). -/
def XZBlock.uncompressed_size (b : XZBlock) : Except PyErr Nat :=
  match evaluate_size b.header 2 with
  | .error e => .error e
  | .ok (_, n) =>
    match evaluate_size b.header (2 + n) with
    | .error e => .error e
    | .ok (v, _) => .ok v

/-- Accessor `XZBlock.compressed_size_padded` (src/xzdecoder.py lines
163-169). -/
def XZBlock.compressed_size_padded (b : XZBlock) : Except PyErr Nat :=
  b.compressed_size.map (fun cs => if cs % 4 = 0 then cs else cs + (4 - cs % 4))

/-- Accessor `XZBlock.end_offset` (src/xzdecoder.py lines 131-133). -/
def XZBlock.end_offset (b : XZBlock) : Except PyErr Nat :=
  b.compressed_size_padded.map
    (fun p => b.offset + b.headerLength + p + b.blockCheckSize)

/-- Accessor `XZBlock.compressed_data` (src/xzdecoder.py lines 81-92):
seek to `offset + header_length`, read `compressed_size` bytes (a read past
EOF returns the bytes that exist), then `assert` the length read equals the
declared size. -/
def XZBlock.compressed_data (b : XZBlock) (file : List Nat) :
    Except PyErr (List Nat) :=
  match b.compressed_size with
  | .error e => .error e
  | .ok cs =>
    let d := (file.drop (b.offset + b.headerLength)).take cs
    if d.length = cs then .ok d else .error .assertionError

/-- Accessor `XZBlock.uncompressed_data` (src/xzdecoder.py lines 98-113),
with `lzma.decompress` kept abstract as the external decode primitive
`decode` (returning `none` on `LZMAError`); the decoded length is
`assert`-ed against the declared `uncompressed_size`. -/
def XZBlock.uncompressed_data (b : XZBlock) (file : List Nat)
    (decode : List Nat → Option (List Nat)) : Except PyErr (List Nat) :=
  match b.compressed_data file with
  | .error e => .error e
  | .ok c =>
    match decode c with
    | none => .error .lzmaError
    | some u =>
      match b.uncompressed_size with
      | .error e => .error e
      | .ok us => if u.length = us then .ok u else .error .assertionError

/-- Length of the XZ stream header, `STREAM_HEADER_LENGTH`
(src/xzdecoder.py line 14). -/
def STREAM_HEADER_LENGTH : Nat := 12

/-- The fixed XZ magic signature bytes of line 207. -/
def XZ_MAGIC : List Nat := [0xFD, 0x37, 0x7A, 0x58, 0x5A, 0x00]

/-- The `CHECK_SIZE` table (src/xzdecoder.py lines 9-13), keyed by the
numeric values of `lzma.CHECK_CRC32 = 1`, `lzma.CHECK_CRC64 = 4` and
`lzma.CHECK_SHA256 = 10`; a key outside the table is a Python `KeyError`,
modelled by `none`. -/
def CHECK_SIZE (k : Nat) : Option Nat :=
  if k = 1 then some 4 else if k = 4 then some 8 else
  if k = 10 then some 32 else none

/-- The `self._header.startswith(b"\xFD7zXZ\x00")` test of line 207. -/
def startsWithMagic (header : List Nat) : Bool :=
  header.take 6 == XZ_MAGIC

/-- State of one `XZFile` (src/xzdecoder.py lines 181-251).  `invalidMagic`
records whether the non-fatal `_log.error` branch of lines 207-208 fired;
`fpLockId` identifies the stream's `threading.Lock` (`_fp_lock`). -/
structure XZFile where
  header : List Nat
  checkSize : Nat
  invalidMagic : Bool
  blockIndex : List XZBlock
  blockMax : Option Nat
  fpLockId : Nat
  deriving DecidableEq, Repr

/-- Stream construction, `XZFile.__init__` (src/xzdecoder.py lines
188-211), over the file bytes (the path-or-handle duck typing of lines
192-198 is modelled separately by `mkXZFileFromArg`).  `fp.read(12)`
returns the bytes that exist; `self._header[7]` raises `IndexError` if
fewer than 8 were read; an unknown check-type nibble is a `KeyError`; a
magic mismatch is only recorded; the initial block at offset 12 is built
WITHOUT `file_lock` (line 210), so it allocates its own fresh lock,
modelled by fresh id 1 against the stream lock id 0. -/
def mkXZFile (file : List Nat) : Except PyErr XZFile :=
  match (file.take STREAM_HEADER_LENGTH)[7]? with
  | none => .error .indexError
  | some b7 =>
    match CHECK_SIZE (b7 &&& 0x0F) with
    | none => .error .keyError
    | some checkSize =>
      match mkXZBlock file STREAM_HEADER_LENGTH checkSize none 1 with
      | .error e => .error e
      | .ok b0 => .ok {
          header := file.take STREAM_HEADER_LENGTH
          checkSize := checkSize
          invalidMagic := !startsWithMagic (file.take STREAM_HEADER_LENGTH)
          blockIndex := [b0]
          blockMax := none
          fpLockId := 0 }

/-- An already-open handle argument, reduced to the capabilities the
duck-typing checks of src/xzdecoder.py lines 192-200 look at. -/
structure PyHandle where
  hasRead : Bool
  hasSeek : Bool
  hasFileno : Bool
  isIOBase : Bool
  deriving DecidableEq, Repr

/-- The `file` argument of `XZFile.__init__`: a path string or an open
handle. -/
inductive FileArg where
  | path (p : List Nat)
  | obj (o : PyHandle)
  deriving DecidableEq, Repr

/-- The argument handling of `XZFile.__init__` (src/xzdecoder.py lines
192-200): a `str` is opened; any other object must have `read`, `seek`
AND `fileno` attributes or a `TypeError` is raised; then
`assert issubclass(type(self._fp), io.IOBase)`.  `contents` are the bytes
the resolved handle reads. -/
def mkXZFileFromArg (arg : FileArg) (contents : List Nat) :
    Except PyErr XZFile :=
  match arg with
  | .path _ => mkXZFile contents
  | .obj o =>
    if o.hasRead && o.hasSeek && o.hasFileno then
      if o.isIOBase then mkXZFile contents else .error .assertionError
    else .error .typeError

/-- Body of `XZFile._get_block_at` (src/xzdecoder.py lines 230-231): the
stream's own lock IS passed as `file_lock`, so `freshLock` is irrelevant
(a `some` argument makes `Option.getD` ignore it). -/
def getBlockAt (f : XZFile) (file : List Nat) (offset : Nat) :
    Except PyErr XZBlock :=
  mkXZBlock file offset f.checkSize (some f.fpLockId) 1

/-- The `while` loop of `XZFile.get_block` (src/xzdecoder.py lines
239-249).  Python mutates `self` and may then re-raise, so the updated
`XZFile` is returned alongside the outcome.  The loop variable `i` is
`blockIndex.length` and grows by one per iteration, so any fuel above
`n` is ample; fuel exhaustion is flagged by `outOfFuel` and never reached
in the concrete evaluations below.  Note that `end_offset` is computed
OUTSIDE the `try`, so its errors propagate without setting `_block_max`,
while any `IndexError` from `_get_block_at` (index marker or truncation)
sets `_block_max = i - 1` and re-raises. -/
def getBlockLoop (file : List Nat) (n : Nat) :
    XZFile → Nat → Except PyErr Unit × XZFile
  | f, fuel =>
    if f.blockIndex.length ≤ n ∧ f.blockMax = none then
      match fuel with
      | 0 => (.error .outOfFuel, f)
      | fuel + 1 =>
        match f.blockIndex.getLast? with
        | none => (.error .indexError, f)
        | some prev =>
          match prev.end_offset with
          | .error e => (.error e, f)
          | .ok nextOffset =>
            match getBlockAt f file nextOffset with
            | .error .indexError =>
              (.error .indexError,
               { f with blockMax := some (f.blockIndex.length - 1) })
            | .error e => (.error e, f)
            | .ok b =>
              getBlockLoop file n { f with blockIndex := f.blockIndex ++ [b] } fuel
    else (.ok (), f)

/-- `XZFile.get_block` (src/xzdecoder.py lines 233-251): run the extension
loop, then return `self._block_index[n]` (out of range is a Python list
`IndexError`). -/
def getBlock (file : List Nat) (n : Nat) (f : XZFile) (fuel : Nat) :
    Except PyErr XZBlock × XZFile :=
  match getBlockLoop file n f fuel with
  | (.error e, f1) => (.error e, f1)
  | (.ok _, f1) =>
    match f1.blockIndex[n]? with
    | none => (.error .indexError, f1)
    | some b => (.ok b, f1)

/-- The `while self._block_max is None` loop of `XZFile.block_count`
(src/xzdecoder.py lines 213-220): call `get_block(len(self._block_index))`
until an `IndexError` breaks out or `_block_max` is set, then return
`self._block_max` (which Python allows to still be `None`). -/
def blockCountLoop (file : List Nat) :
    XZFile → Nat → Except PyErr (Option Nat) × XZFile
  | f, fuel =>
    if f.blockMax = none then
      match fuel with
      | 0 => (.error .outOfFuel, f)
      | fuel + 1 =>
        match getBlock file f.blockIndex.length f (fuel + 1) with
        | (.error .indexError, f1) => (.ok f1.blockMax, f1)
        | (.error e, f1) => (.error e, f1)
        | (.ok _, f1) => blockCountLoop file f1 fuel
    else (.ok f.blockMax, f)

/-- Construct the `XZFile` for the given bytes and run `block_count` with
ample fuel. -/
def blockCountRun (file : List Nat) : Except PyErr (Option Nat) :=
  match mkXZFile file with
  | .error e => .error e
  | .ok f => (blockCountLoop file f (file.length + 1)).1

/-- A 12-byte stream header with the XZ magic and check type 1
(CRC32, check size 4). -/
def demoStreamHeader : List Nat :=
  [0xFD, 0x37, 0x7A, 0x58, 0x5A, 0x00, 0x00, 0x01, 0x00, 0x00, 0x00, 0x00]

/-- An 8-byte block header: size indicator 1 (header length 8), flags 0xC1
(one filter, both size fields present), compressed size bytes 0x90 0x01
(decodes to 144 under `evaluate_size`), uncompressed size bytes 0x90 0x02
(decodes to 272), then two filler bytes (the decoder never checks padding
or the header CRC). -/
def demoBlockHeader : List Nat :=
  [0x01, 0xC1, 0x90, 0x01, 0x90, 0x02, 0x00, 0x00]

/-- A well-formed synthetic one-block stream: header, one block (8-byte
block header, 144 payload bytes, 4 check bytes), then the 0x00 index
marker at offset 168; 169 bytes in total. -/
def demoFile1 : List Nat :=
  demoStreamHeader ++ demoBlockHeader ++ List.replicate 144 0 ++
  [0, 0, 0, 0] ++ [0]

/-- A well-formed synthetic two-block stream: like `demoFile1` but with a
second identical block before the index marker, which sits at offset 324;
325 bytes in total. -/
def demoFile2 : List Nat :=
  demoStreamHeader ++ demoBlockHeader ++ List.replicate 144 0 ++
  [0, 0, 0, 0] ++ demoBlockHeader ++ List.replicate 144 0 ++
  [0, 0, 0, 0] ++ [0]

/-- C1: for a well-formed stream with N blocks, `block_count()` should
return N and be stable.  The code instead returns N - 1: when the index
marker is found while `i` blocks are already indexed it sets
`_block_max = i - 1`.  This theorem evaluates the embedded code on the
one-block stream `demoFile1` (whose single block ends exactly at the
index marker, offset 168) and on the two-block stream `demoFile2`
(second block ends at marker offset 324): `block_count` yields 0 and 1
respectively instead of 1 and 2. -/
theorem c1_block_count_off_by_one :
    demoFile1.length = 169 ∧
    demoFile1[168]? = some 0 ∧
    (mkXZFile demoFile1).map (fun f => f.blockIndex.map XZBlock.end_offset)
      = .ok [.ok 168] ∧
    blockCountRun demoFile1 = .ok (some 0) ∧
    demoFile2.length = 325 ∧
    demoFile2[324]? = some 0 ∧
    (mkXZFile demoFile2).map
        (fun f => ((getBlock demoFile2 1 f 5).1).map XZBlock.end_offset)
      = .ok (.ok (.ok 324)) ∧
    blockCountRun demoFile2 = .ok (some 1) :=
  ⟨rfl, rfl, rfl, rfl, rfl, rfl, rfl, rfl⟩

/-- C3: the round-trip claim fails for values below 128.  `encodeVarint 5`
is the single byte `[0x05]`, but `_evaluate_size` never checks the first
byte's high bit: on the exact encoding it runs off the span
(`IndexError`), and with a following byte `0x01` it consumes 2 bytes and
returns 133, not 5 with 1 byte consumed. -/
theorem c3_single_byte_roundtrip_fails :
    encodeVarint 5 = [5] ∧
    evaluate_size [5] 0 = .error .indexError ∧
    evaluate_size [5, 1] 0 = .ok (133, 2) ∧
    ((133, 2) : Nat × Nat) ≠ (5, 1) := by
  refine ⟨?_, rfl, rfl, by decide⟩
  unfold encodeVarint
  norm_num

/-- C4: the spec says every block shares the stream's lock, but
`XZFile.__init__` (line 210) builds the initial block WITHOUT passing
`file_lock`, so that block allocates its own private `threading.Lock`
(fresh id 1 here) distinct from the stream's `_fp_lock` (id 0), while a
block produced through `_get_block_at` does share the stream's lock. -/
theorem c4_initial_block_private_lock :
    (mkXZFile demoFile2).map
        (fun f => f.blockIndex.map (fun b => decide (b.lockId = f.fpLockId)))
      = .ok [false] ∧
    (mkXZFile demoFile2).map
        (fun f => ((getBlock demoFile2 1 f 5).1).map
          (fun b => decide (b.lockId = f.fpLockId)))
      = .ok (.ok true) :=
  ⟨rfl, rfl⟩

/-- A byte whose high bit is set is nonzero. -/
theorem ne_zero_of_high_bit (x : Nat) (hx : x &&& 0x80 ≠ 0) : x ≠ 0 :=
  fun h0 => hx (by subst h0; decide)

/-- If every byte of the remaining span has its high bit set, the
`_evaluate_size` loop runs off the end of the span and fails with the
out-of-range `IndexError`, for any loop counter and accumulator. -/
theorem evalSizeLoop_exhausted (l : List Nat)
    (hl : ∀ x ∈ l, x &&& 0x80 ≠ 0) :
    ∀ i acc, evalSizeLoop i acc l = .error .indexError := by
  induction l with
  | nil => intro i acc; rfl
  | cons x rest ih =>
    intro i acc
    have hx : x &&& 0x80 ≠ 0 := hl x (List.mem_cons_self x rest)
    have hx0 : x ≠ 0 := ne_zero_of_high_bit x hx
    simp only [evalSizeLoop, if_neg hx0, if_neg hx]
    exact ih (fun y hy => hl y (List.mem_cons_of_mem x hy)) (i + 1) _

/-- C5 as stated is false at the span `[0x81]`: the decoder exhausts the
span and fails with the out-of-range `IndexError`, which is not the
`ValueError` the spec calls `MalformedVarint`. -/
theorem c5_counterexample :
    evaluate_size [0x81] 0 = .error .indexError ∧
    PyErr.indexError ≠ PyErr.valueError := ⟨rfl, by decide⟩

/-- C5 amended: for every byte span exhausted before a varint terminates
(no byte after the start position has its high bit clear), the Size
Decoder fails with the out-of-range `IndexError` of Python bytes indexing
— not with `MalformedVarint` — and performs no out-of-bounds read. -/
theorem c5_exhausted_raises_index_error (data : List Nat) (off : Nat)
    (hcont : ∀ j x, off < j → data[j]? = some x → x &&& 0x80 ≠ 0) :
    evaluate_size data off = .error .indexError := by
  unfold evaluate_size
  cases hb : data[off]? with
  | none => rfl
  | some b0 =>
    apply evalSizeLoop_exhausted
    intro x hx
    obtain ⟨m, hmlt, hme⟩ := List.getElem_of_mem hx
    have hm : (data.drop (off + 1))[m]? = some x := by
      rw [List.getElem?_eq_getElem hmlt, hme]
    rw [List.getElem?_drop] at hm
    exact hcont (off + 1 + m) x (by omega) hm

/-- Witness for C5: the concrete exhausted span `[0x81, 0x82]` (both
bytes have the high bit set) indeed yields `IndexError`. -/
theorem c5_exhausted_raises_index_error_witness :
    evaluate_size [0x81, 0x82] 0 = .error .indexError := by
  apply c5_exhausted_raises_index_error
  intro j x hj hx
  match j, hj with
  | 1, _ =>
    have hx2 : 0x82 = x := by simpa using hx
    subst hx2; decide
  | m + 2, _ =>
    simp at hx

/-- If the `_evaluate_size` loop meets a `0x00` byte at position `k` of
the remaining span and every earlier byte of the span has its high bit
set, it raises the `ValueError` the spec calls `MalformedVarint`, for any
loop counter and accumulator. -/
theorem evalSizeLoop_zero_byte :
    ∀ (k : Nat) (l : List Nat), l[k]? = some 0 →
      (∀ m x, m < k → l[m]? = some x → x &&& 0x80 ≠ 0) →
      ∀ i acc, evalSizeLoop i acc l = .error .valueError := by
  intro k
  induction k with
  | zero =>
    intro l h0 _ i acc
    cases l with
    | nil => cases h0
    | cons x rest =>
      have hx : x = 0 := by simpa using h0
      subst hx
      rfl
  | succ k ih =>
    intro l h0 hcont i acc
    cases l with
    | nil => cases h0
    | cons x rest =>
      have hx : x &&& 0x80 ≠ 0 := hcont 0 x (Nat.succ_pos k) (by simp)
      have hx0 : x ≠ 0 := ne_zero_of_high_bit x hx
      simp only [evalSizeLoop, if_neg hx0, if_neg hx]
      exact ih rest (by simpa using h0)
        (fun m y hm hy => hcont (m + 1) y (by omega) (by simpa using hy))
        (i + 1) _

/-- C2 as stated is false: a continuation byte of value `0x80` (high bit
set, low 7 bits zero) does NOT make the decode fail.  On
`[0x81, 0x80, 0x01]` the decoder accepts the `0x80` continuation byte
(contributing zero) and succeeds with value 16385, consuming 3 bytes; the
code only raises on a byte equal to `0x00`. -/
theorem c2_counterexample :
    evaluate_size [0x81, 0x80, 0x01] 0 = .ok (16385, 3) ∧
    0x80 &&& 0x80 ≠ 0 ∧ 0x80 &&& 0x7F = 0 :=
  ⟨rfl, by decide, by decide⟩

/-- C2 amended: the byte value that makes `_evaluate_size` fail with
`MalformedVarint` (the `ValueError` of line 145) is `0x00`, not `0x80`:
if the byte at position `k ≥ 1` past the start of the field is `0x00` and
every byte strictly between start and `k` has its high bit set (so the
loop reaches position `k`), the decode fails with `ValueError`.  A `0x80`
byte is instead accepted and decoding continues (see the
counterexample). -/
theorem c2_zero_continuation_malformed (data : List Nat) (off k : Nat)
    (hk : 1 ≤ k) (b0 : Nat) (hb0 : data[off]? = some b0)
    (hzero : data[off + k]? = some 0)
    (hcont : ∀ j x, 1 ≤ j → j < k → data[off + j]? = some x →
      x &&& 0x80 ≠ 0) :
    evaluate_size data off = .error .valueError := by
  unfold evaluate_size
  rw [hb0]
  apply evalSizeLoop_zero_byte (k - 1)
  · rw [List.getElem?_drop]
    rw [show off + 1 + (k - 1) = off + k by omega]
    exact hzero
  · intro m x hm hx
    rw [List.getElem?_drop] at hx
    refine hcont (1 + m) x (by omega) (by omega) ?_
    rw [show off + (1 + m) = off + 1 + m by omega]
    exact hx

/-- Witness for C2 amended: on `[0x81, 0xFF, 0x00]` the `0x00` byte at
position 2 is reached (the byte before it has its high bit set) and the
decode fails with the `ValueError` called `MalformedVarint`. -/
theorem c2_zero_continuation_malformed_witness :
    evaluate_size [0x81, 0xFF, 0x00] 0 = .error .valueError := by
  apply c2_zero_continuation_malformed [0x81, 0xFF, 0x00] 0 2 (by omega) 0x81 rfl rfl
  · intro j x h1 h2 hx
    have hj : j = 1 := by omega
    subst hj
    have hx2 : 0xFF = x := by simpa using hx
    subst hx2; decide

/-- The concrete block that `mkXZBlock` produces at offset 12 of
`demoFile1` (the initial block of the stream, built without `file_lock`,
hence the fresh lock id 1). -/
def demoBlock0 : XZBlock :=
  { offset := 12
    blockCheckSize := 4
    header := [0x01, 0xC1, 0x90, 0x01, 0x90, 0x02, 0x00, 0x00]
    headerLength := 8
    flag := 0xC1
    numberOfFilters := 1
    hasCompressedSize := true
    hasUncompressedSize := true
    lockId := 1 }

/-- C6: for every successfully constructed block whose compressed size
field decodes, `compressed_size_padded` is `compressed_size` rounded up
to the next multiple of 4 (equal to it exactly when it is already a
multiple of 4) and `end_offset` equals
`offset + header_length + compressed_size_padded + check_size`. -/
theorem c6_end_offset_formula (file : List Nat) (off ck fr : Nat)
    (lk : Option Nat) (b : XZBlock) (cs : Nat)
    (_hb : mkXZBlock file off ck lk fr = .ok b)
    (hcs : b.compressed_size = .ok cs) :
    ∃ p, b.compressed_size_padded = .ok p ∧
      b.end_offset = .ok (b.offset + b.headerLength + p + b.blockCheckSize) ∧
      p % 4 = 0 ∧ cs ≤ p ∧ p < cs + 4 ∧ (cs % 4 = 0 → p = cs) := by
  refine ⟨if cs % 4 = 0 then cs else cs + (4 - cs % 4), ?_, ?_, ?_, ?_, ?_, ?_⟩
  · unfold XZBlock.compressed_size_padded
    rw [hcs]
    rfl
  · unfold XZBlock.end_offset XZBlock.compressed_size_padded
    rw [hcs]
    rfl
  · split <;> omega
  · split <;> omega
  · split <;> omega
  · intro h4
    rw [if_pos h4]

/-- Witness for C6 at the concrete initial block of `demoFile1`
(compressed size 144, already a multiple of 4, so the padded size is
144 and the block ends at 12 + 8 + 144 + 4 = 168). -/
theorem c6_end_offset_formula_witness :
    mkXZBlock demoFile1 12 4 none 1 = .ok demoBlock0 ∧
    ∃ p, demoBlock0.compressed_size_padded = .ok p ∧
      demoBlock0.end_offset = .ok (demoBlock0.offset + demoBlock0.headerLength
        + p + demoBlock0.blockCheckSize) ∧
      p % 4 = 0 ∧ 144 ≤ p ∧ p < 144 + 4 ∧ (144 % 4 = 0 → p = 144) :=
  ⟨rfl, c6_end_offset_formula demoFile1 12 4 1 none demoBlock0 144 rfl rfl⟩

/-- C7: for every successfully constructed block of a non-truncated
stream whose payload the external decode primitive accepts with the
declared output length, both `assert`s hold: `compressed_data` returns
exactly `compressed_size` bytes and `uncompressed_data` returns exactly
`uncompressed_size` bytes (no `assertionError` is raised). -/
theorem c7_data_length_assertions (file : List Nat) (off ck fr : Nat)
    (lk : Option Nat) (b : XZBlock) (cs us : Nat)
    (decode : List Nat → Option (List Nat)) (u : List Nat)
    (_hb : mkXZBlock file off ck lk fr = .ok b)
    (hcs : b.compressed_size = .ok cs)
    (hus : b.uncompressed_size = .ok us)
    (hlen : b.offset + b.headerLength + cs ≤ file.length)
    (hdec : decode ((file.drop (b.offset + b.headerLength)).take cs) = some u)
    (hulen : u.length = us) :
    (∃ d, b.compressed_data file = .ok d ∧ d.length = cs) ∧
    b.uncompressed_data file decode = .ok u ∧ u.length = us := by
  have hdlen : ((file.drop (b.offset + b.headerLength)).take cs).length = cs := by
    rw [List.length_take, List.length_drop]
    omega
  have hcd : b.compressed_data file
      = .ok ((file.drop (b.offset + b.headerLength)).take cs) := by
    unfold XZBlock.compressed_data
    rw [hcs]
    simp [hdlen]
  refine ⟨⟨_, hcd, hdlen⟩, ?_, hulen⟩
  unfold XZBlock.uncompressed_data
  rw [hcd]
  simp [hdec, hus, hulen]

/-- Witness for C7 at the initial block of `demoFile1` with a concrete
decode primitive producing the declared 272 bytes. -/
theorem c7_data_length_assertions_witness :
    (∃ d, demoBlock0.compressed_data demoFile1 = .ok d ∧ d.length = 144) ∧
    demoBlock0.uncompressed_data demoFile1 (fun _ => some (List.replicate 272 0))
      = .ok (List.replicate 272 0) ∧
    (List.replicate 272 (0 : Nat)).length = 272 :=
  c7_data_length_assertions demoFile1 12 4 1 none demoBlock0 144 272
    (fun _ => some (List.replicate 272 0)) (List.replicate 272 0)
    rfl rfl rfl (by decide) rfl rfl

/-- C8: for every file of at least 12 bytes whose check-type nibble is in
the known table and whose initial block parses, `XZFile` construction
succeeds with NO hypothesis on the magic signature: a magic mismatch is
only recorded in the `invalidMagic` flag (the `_log.error` branch of
lines 207-208) and no error is raised to the caller. -/
theorem c8_magic_mismatch_nonfatal (file : List Nat) (b7 ck : Nat)
    (b0 : XZBlock)
    (_hlen : 12 ≤ file.length)
    (h7 : file[7]? = some b7)
    (hck : CHECK_SIZE (b7 &&& 0x0F) = some ck)
    (hb0 : mkXZBlock file STREAM_HEADER_LENGTH ck none 1 = .ok b0) :
    mkXZFile file = .ok {
      header := file.take STREAM_HEADER_LENGTH
      checkSize := ck
      invalidMagic := !startsWithMagic (file.take STREAM_HEADER_LENGTH)
      blockIndex := [b0]
      blockMax := none
      fpLockId := 0 } := by
  have h7t : (file.take STREAM_HEADER_LENGTH)[7]? = some b7 := by
    rw [List.getElem?_take]
    simp [STREAM_HEADER_LENGTH, h7]
  unfold mkXZFile
  simp only [h7t, hck, hb0]

/-- A 14-byte file with a corrupted magic signature (six zero bytes) but
a valid check-type nibble (1, CRC32) and a parsable initial block header
at offset 12. -/
def demoFileBadMagic : List Nat :=
  [0, 0, 0, 0, 0, 0, 0, 0x01, 0, 0, 0, 0, 0x01, 0xC1]

/-- The initial block parsed from `demoFileBadMagic` (its header is cut
short by the end of the file, which `__init__` does not check). -/
def demoBlockBadMagic : XZBlock :=
  { offset := 12
    blockCheckSize := 4
    header := [0x01, 0xC1]
    headerLength := 8
    flag := 0xC1
    numberOfFilters := 1
    hasCompressedSize := true
    hasUncompressedSize := true
    lockId := 1 }

/-- Witness for C8: on the bad-magic file, construction succeeds and the
mismatch is recorded. -/
theorem c8_magic_mismatch_nonfatal_witness :
    ∃ f, mkXZFile demoFileBadMagic = .ok f ∧ f.invalidMagic = true :=
  ⟨_, c8_magic_mismatch_nonfatal demoFileBadMagic 0x01 4 demoBlockBadMagic
    (by decide) rfl rfl rfl, rfl⟩

/-- Block construction never raises `TypeError` (its failures are
`IndexError` or `NotImplementedError`). -/
theorem mkXZBlock_ne_typeError (file : List Nat) (off ck : Nat)
    (lk : Option Nat) (fr : Nat) :
    mkXZBlock file off ck lk fr ≠ .error .typeError := by
  intro h
  unfold mkXZBlock at h
  repeat' split at h
  all_goals simp_all

/-- Stream construction from bytes never raises `TypeError` (its failures
are `IndexError`, `KeyError`, or the initial block's errors). -/
theorem mkXZFile_ne_typeError (file : List Nat) :
    mkXZFile file ≠ .error .typeError := by
  intro h
  unfold mkXZFile at h
  split at h
  · simp_all
  · split at h
    · simp_all
    · split at h
      next e heq =>
        have he : e = PyErr.typeError := Except.error.inj h
        subst he
        exact mkXZBlock_ne_typeError _ _ _ _ _ heq
      next b0 heq => simp_all

/-- An open handle with `read` and `seek` but no `fileno` attribute. -/
def handleNoFileno : PyHandle :=
  { hasRead := true, hasSeek := true, hasFileno := false, isIOBase := true }

/-- An open handle with all three required attributes. -/
def handleFull : PyHandle :=
  { hasRead := true, hasSeek := true, hasFileno := true, isIOBase := true }

/-- C9 as stated is false: an object that provides `read` and `seek` but
lacks `fileno` is rejected by `XZFile.__init__` with a `TypeError`
(line 195 requires `fileno` as well). -/
theorem c9_counterexample :
    mkXZFileFromArg (.obj handleNoFileno) [] = .error .typeError := rfl

/-- C9 amended: `XZFile` accepts a path, or an open handle providing
`read`, `seek` AND `fileno`; for those arguments construction never fails
with a `TypeError` (it may still fail for other reasons — bad stream
bytes, or the `io.IOBase` assertion — but never with the duck-typing
`TypeError`). -/
theorem c9_fileno_also_required (arg : FileArg) (contents : List Nat)
    (hok : match arg with
      | .path _ => True
      | .obj o => o.hasRead = true ∧ o.hasSeek = true ∧ o.hasFileno = true) :
    mkXZFileFromArg arg contents ≠ .error .typeError := by
  cases arg with
  | path p => exact mkXZFile_ne_typeError contents
  | obj o =>
    obtain ⟨h1, h2, h3⟩ := hok
    simp only [mkXZFileFromArg, h1, h2, h3, Bool.and_self, Bool.and_true,
      Bool.true_and, if_true]
    cases hio : o.isIOBase with
    | true => simpa using mkXZFile_ne_typeError contents
    | false => simp

/-- Witness for C9 amended: a handle with all three attributes is not
rejected with `TypeError`. -/
theorem c9_fileno_also_required_witness :
    mkXZFileFromArg (.obj handleFull) demoFile1 ≠ .error .typeError :=
  c9_fileno_also_required _ demoFile1 ⟨rfl, rfl, rfl⟩

/-- Bytes below 256 with a clear high bit are unchanged by the `& 0x7F`
mask. -/
theorem and_7F_of_byte : ∀ x : Nat, x < 256 → x &&& 0x80 = 0 →
    x &&& 0x7F = x := by decide

/-- In a natural-number bitwise or, a zero result forces the right
operand to be zero. -/
theorem right_eq_zero_of_or_eq_zero {a b : Nat} (h : a ||| b = 0) :
    b = 0 := by
  apply Nat.eq_of_testBit_eq
  intro i
  have h2 := congrArg (fun n => Nat.testBit n i) h
  simp only [Nat.testBit_or, Nat.zero_testBit, Bool.or_eq_false_iff] at h2
  simp [h2.2]

/-- Any successful run of the `_evaluate_size` loop over bytes (< 256)
returns a nonzero value: the loop body always executes at least once, its
terminating byte is nonzero with a clear high bit, and that byte's low 7
bits are or-ed into the result. -/
theorem evalSizeLoop_pos (l : List Nat) (hl : ∀ b ∈ l, b < 256) :
    ∀ i acc v n, evalSizeLoop i acc l = .ok (v, n) → 1 ≤ v := by
  induction l with
  | nil => intro i acc v n h; cases h
  | cons x rest ih =>
    intro i acc v n h
    have hx256 : x < 256 := hl x (List.mem_cons_self x rest)
    by_cases hx0 : x = 0
    · subst hx0; simp [evalSizeLoop] at h
    · by_cases hxh : x &&& 0x80 = 0
      · simp only [evalSizeLoop, if_neg hx0, if_pos hxh] at h
        have hv : v = acc ||| ((x &&& 0x7F) <<< (7 * i)) :=
          ((Prod.mk.injEq _ _ _ _).mp (Except.ok.inj h).symm).1
        have hmask : x &&& 0x7F = x := and_7F_of_byte x hx256 hxh
        have hshift : (x &&& 0x7F) <<< (7 * i) ≠ 0 := by
          rw [hmask, Nat.shiftLeft_eq]
          positivity
        have hvne : v ≠ 0 := by
          intro hz
          exact hshift (right_eq_zero_of_or_eq_zero (hv ▸ hz))
        omega
      · simp only [evalSizeLoop, if_neg hx0, if_neg hxh] at h
        exact ih (fun y hy => hl y (List.mem_cons_of_mem x hy)) _ _ _ _ h

/-- Any successful decode by the Size Decoder over bytes (< 256) returns
a value of at least 1. -/
theorem evaluate_size_pos (data : List Nat) (hb : ∀ b ∈ data, b < 256)
    (off v n : Nat) (h : evaluate_size data off = .ok (v, n)) : 1 ≤ v := by
  unfold evaluate_size at h
  cases hd : data[off]? with
  | none => rw [hd] at h; cases h
  | some b0 =>
    rw [hd] at h
    exact evalSizeLoop_pos (data.drop (off + 1))
      (fun y hy => hb y (List.mem_of_mem_drop hy)) _ _ _ _ h

/-- The mutable per-block state the size accessors touch: `_header`,
`_decode_offset`, `_compressed_size` and `_uncompressed_size`
(src/xzdecoder.py lines 68-73; the caches start as Python `None`). -/
structure BlockSizeState where
  header : List Nat
  decodeOffset : Nat
  compressedSizeCache : Option Nat
  uncompressedSizeCache : Option Nat
  deriving DecidableEq, Repr

/-- Python falsiness of the `None`-or-int cache fields: `None` and `0`
are falsy, every other integer is truthy (this is the `if not self._...`
test of lines 158 and 174). -/
def cacheFalsy : Option Nat → Bool
  | none => true
  | some 0 => true
  | some _ => false

/-- `XZBlock._evaluate_size` as the stateful method: decode at
`_decode_offset` and advance it by the bytes consumed; on a raise the
state is unchanged (the `self._decode_offset += i + 1` of line 152 runs
only after the loop finishes). -/
def evalSizeMethod (s : BlockSizeState) : Except PyErr Nat × BlockSizeState :=
  match evaluate_size s.header s.decodeOffset with
  | .error e => (.error e, s)
  | .ok (v, n) => (.ok v, { s with decodeOffset := s.decodeOffset + n })

/-- The stateful `compressed_size` property (lines 155-161): decode and
store on a falsy cache, return the cached value otherwise. -/
def compressedSizeMethod (s : BlockSizeState) :
    Except PyErr Nat × BlockSizeState :=
  if cacheFalsy s.compressedSizeCache then
    match evalSizeMethod s with
    | (.error e, s1) => (.error e, s1)
    | (.ok v, s1) => (.ok v, { s1 with compressedSizeCache := some v })
  else (.ok (s.compressedSizeCache.getD 0), s)

/-- The stateful `uncompressed_size` property (lines 171-178): on a falsy
cache it first runs `self._uncompressed_size = self.compressed_size`
(forcing the first field's decode and temporarily caching that value)
and then overwrites the cache with the next decoded field; an exception
in the second decode leaves the temporary assignment behind, exactly as
in Python. -/
def uncompressedSizeMethod (s : BlockSizeState) :
    Except PyErr Nat × BlockSizeState :=
  if cacheFalsy s.uncompressedSizeCache then
    match compressedSizeMethod s with
    | (.error e, s1) => (.error e, s1)
    | (.ok cs, s1) =>
      match evalSizeMethod { s1 with uncompressedSizeCache := some cs } with
      | (.error e, s3) => (.error e, s3)
      | (.ok v, s3) => (.ok v, { s3 with uncompressedSizeCache := some v })
  else (.ok (s.uncompressedSizeCache.getD 0), s)

/-- A successful `compressed_size` access returns a positive value (its
header bytes being genuine bytes < 256). -/
theorem compressedSizeMethod_pos (s : BlockSizeState)
    (hb : ∀ b ∈ s.header, b < 256) (v : Nat) (s1 : BlockSizeState)
    (h : compressedSizeMethod s = (.ok v, s1)) : 1 ≤ v := by
  unfold compressedSizeMethod at h
  by_cases hc : cacheFalsy s.compressedSizeCache
  · rw [if_pos hc] at h
    unfold evalSizeMethod at h
    cases he : evaluate_size s.header s.decodeOffset with
    | error e => rw [he] at h; cases h
    | ok p =>
      rw [he] at h
      have hv : p.1 = v := by
        cases h
        rfl
      exact hv ▸ evaluate_size_pos s.header hb s.decodeOffset p.1 p.2
        (by rw [he])
  · rw [if_neg hc] at h
    cases hcc : s.compressedSizeCache with
    | none => rw [hcc] at hc; simp [cacheFalsy] at hc
    | some w =>
      rw [hcc] at hc h
      cases w with
      | zero => simp [cacheFalsy] at hc
      | succ w2 =>
        have : w2 + 1 = v := by
          cases h
          rfl
        omega

/-- `_evaluate_size` never changes `_header`. -/
theorem evalSizeMethod_header (s : BlockSizeState) :
    (evalSizeMethod s).2.header = s.header := by
  unfold evalSizeMethod
  cases evaluate_size s.header s.decodeOffset <;> rfl

/-- The `compressed_size` property never changes `_header`. -/
theorem compressedSizeMethod_header (s : BlockSizeState) :
    (compressedSizeMethod s).2.header = s.header := by
  unfold compressedSizeMethod
  by_cases hc : cacheFalsy s.compressedSizeCache
  · rw [if_pos hc]
    have := evalSizeMethod_header s
    cases hev : evalSizeMethod s with
    | mk r s1 =>
      rw [hev] at this
      cases r <;> exact this
  · rw [if_neg hc]

/-- A successful `compressed_size` access leaves the decoded value in the
cache. -/
theorem compressedSizeMethod_cache (s : BlockSizeState) (v : Nat)
    (s1 : BlockSizeState) (h : compressedSizeMethod s = (.ok v, s1)) :
    s1.compressedSizeCache = some v := by
  unfold compressedSizeMethod at h
  by_cases hc : cacheFalsy s.compressedSizeCache
  · rw [if_pos hc] at h
    cases hev : evalSizeMethod s with
    | mk r s2 =>
      rw [hev] at h
      cases r with
      | error e => simp at h
      | ok w =>
        obtain ⟨hw, hs⟩ := Prod.mk.injEq .. |>.mp h
        rw [← hs]
        rw [Except.ok.inj hw]
  · rw [if_neg hc] at h
    obtain ⟨hw, hs⟩ := Prod.mk.injEq .. |>.mp h
    cases hcc : s.compressedSizeCache with
    | none => rw [hcc] at hc; simp [cacheFalsy] at hc
    | some w =>
      rw [hcc] at hc
      cases w with
      | zero => simp [cacheFalsy] at hc
      | succ w2 =>
        rw [← hs, hcc, ← Except.ok.inj hw, hcc]
        rfl

/-- A truthy cached value makes the property return it without touching
the state. -/
theorem compressedSizeMethod_of_cache (s : BlockSizeState) (v : Nat)
    (hv : 1 ≤ v) (hc : s.compressedSizeCache = some v) :
    compressedSizeMethod s = (.ok v, s) := by
  unfold compressedSizeMethod
  rw [hc]
  have hf : cacheFalsy (some v) = false := by
    cases v with
    | zero => omega
    | succ v2 => rfl
  simp [hf]

/-- Soundness of the `compressed_size` memoization over byte headers: a
successful access yields a positive value and a repeated access returns
the same value with the state untouched (no second decode). -/
theorem compressedSizeMethod_idem (s : BlockSizeState)
    (hb : ∀ b ∈ s.header, b < 256) (v : Nat) (s1 : BlockSizeState)
    (h : compressedSizeMethod s = (.ok v, s1)) :
    1 ≤ v ∧ compressedSizeMethod s1 = (.ok v, s1) := by
  have hv := compressedSizeMethod_pos s hb v s1 h
  exact ⟨hv, compressedSizeMethod_of_cache s1 v hv
    (compressedSizeMethod_cache s v s1 h)⟩

/-- A successful run of the `_evaluate_size` method returns a positive
value when the header holds genuine bytes. -/
theorem evalSizeMethod_ok_pos (s : BlockSizeState)
    (hb : ∀ b ∈ s.header, b < 256) (w : Nat) (s3 : BlockSizeState)
    (h : evalSizeMethod s = (.ok w, s3)) : 1 ≤ w := by
  unfold evalSizeMethod at h
  cases he : evaluate_size s.header s.decodeOffset with
  | error e => rw [he] at h; simp at h
  | ok p =>
    rw [he] at h
    obtain ⟨hp, _⟩ := Prod.mk.injEq .. |>.mp h
    rw [← Except.ok.inj hp]
    exact evaluate_size_pos s.header hb s.decodeOffset p.1 p.2 (by rw [he])

/-- A truthy cached value makes the `uncompressed_size` property return
it without touching the state. -/
theorem uncompressedSizeMethod_of_cache (s : BlockSizeState) (v : Nat)
    (hv : 1 ≤ v) (hc : s.uncompressedSizeCache = some v) :
    uncompressedSizeMethod s = (.ok v, s) := by
  unfold uncompressedSizeMethod
  rw [hc]
  have hf : cacheFalsy (some v) = false := by
    cases v with
    | zero => omega
    | succ v2 => rfl
  simp [hf]

/-- Soundness of the `uncompressed_size` memoization over byte headers: a
successful access yields a positive value and a repeated access returns
the same value with the state untouched (no second decode). -/
theorem uncompressedSizeMethod_idem (s : BlockSizeState)
    (hb : ∀ b ∈ s.header, b < 256) (v : Nat) (s1 : BlockSizeState)
    (h : uncompressedSizeMethod s = (.ok v, s1)) :
    1 ≤ v ∧ uncompressedSizeMethod s1 = (.ok v, s1) := by
  unfold uncompressedSizeMethod at h
  by_cases hc : cacheFalsy s.uncompressedSizeCache
  · rw [if_pos hc] at h
    cases hcs : compressedSizeMethod s with
    | mk r s2 =>
      rw [hcs] at h
      cases r with
      | error e => simp at h
      | ok cs =>
        have h2 : (match evalSizeMethod { s2 with uncompressedSizeCache := some cs } with
            | (.error e, s3) => ((.error e : Except PyErr Nat), s3)
            | (.ok w, s3) => (.ok w, { s3 with uncompressedSizeCache := some w }))
            = ((.ok v : Except PyErr Nat), s1) := h
        cases hev : evalSizeMethod { s2 with uncompressedSizeCache := some cs } with
        | mk r2 s3 =>
          rw [hev] at h2
          cases r2 with
          | error e => simp at h2
          | ok w =>
            obtain ⟨hw, hs⟩ := Prod.mk.injEq .. |>.mp h2
            have hwv : w = v := Except.ok.inj hw
            have hs2h : s2.header = s.header := by
              have hx := compressedSizeMethod_header s
              rw [hcs] at hx
              exact hx
            have hwpos : 1 ≤ w :=
              evalSizeMethod_ok_pos { s2 with uncompressedSizeCache := some cs }
                (hs2h ▸ hb) w s3 hev
            have hvpos : 1 ≤ v := hwv ▸ hwpos
            refine ⟨hvpos, ?_⟩
            apply uncompressedSizeMethod_of_cache s1 v hvpos
            rw [← hs, ← hwv]
  · rw [if_neg hc] at h
    obtain ⟨hw, hs⟩ := Prod.mk.injEq .. |>.mp h
    cases hcc : s.uncompressedSizeCache with
    | none => rw [hcc] at hc; simp [cacheFalsy] at hc
    | some w =>
      rw [hcc] at hc
      cases w with
      | zero => simp [cacheFalsy] at hc
      | succ w2 =>
        have hwv : w2 + 1 = v := by
          rw [← Except.ok.inj hw, hcc]
          rfl
        have hvpos : 1 ≤ v := by omega
        refine ⟨hvpos, ?_⟩
        apply uncompressedSizeMethod_of_cache s1 v hvpos
        rw [← hs, hcc, hwv]

/-- C10: over a genuine byte header, every successful decode by the Size
Decoder returns a value of at least 1, and consequently the
falsiness-based memoization of `compressed_size` and `uncompressed_size`
is sound: once an access succeeds the cached value is truthy, so a
repeated access returns the same value with the block state unchanged
(each size field is decoded at most once). -/
theorem c10_sizes_positive_memoization_sound (data : List Nat)
    (hb : ∀ b ∈ data, b < 256) :
    (∀ off v n, evaluate_size data off = .ok (v, n) → 1 ≤ v) ∧
    (∀ s v s1, s.header = data → compressedSizeMethod s = (.ok v, s1) →
      1 ≤ v ∧ compressedSizeMethod s1 = (.ok v, s1)) ∧
    (∀ s v s1, s.header = data → uncompressedSizeMethod s = (.ok v, s1) →
      1 ≤ v ∧ uncompressedSizeMethod s1 = (.ok v, s1)) := by
  refine ⟨fun off v n h => evaluate_size_pos data hb off v n h, ?_, ?_⟩
  · intro s v s1 hh h
    exact compressedSizeMethod_idem s (hh ▸ hb) v s1 h
  · intro s v s1 hh h
    exact uncompressedSizeMethod_idem s (hh ▸ hb) v s1 h

/-- The fresh decode state of a block with header `demoBlockHeader`
(as left by `__init__`: `_decode_offset = 2`, both caches `None`). -/
def demoSizeState : BlockSizeState :=
  { header := demoBlockHeader
    decodeOffset := 2
    compressedSizeCache := none
    uncompressedSizeCache := none }

/-- The state after a first successful `compressed_size` access: the
first field (144) decoded and cached, `_decode_offset` advanced to 4. -/
def demoSizeState1 : BlockSizeState :=
  { header := demoBlockHeader
    decodeOffset := 4
    compressedSizeCache := some 144
    uncompressedSizeCache := none }

/-- The state after a first successful `uncompressed_size` access on the
fresh state: both fields decoded (144 and 272) and cached,
`_decode_offset` advanced to 6. -/
def demoSizeState2 : BlockSizeState :=
  { header := demoBlockHeader
    decodeOffset := 6
    compressedSizeCache := some 144
    uncompressedSizeCache := some 272 }

/-- Witness for C10 at the concrete header `demoBlockHeader`: the first
`compressed_size` access yields 144 reaching `demoSizeState1` and is
idempotent there; the first `uncompressed_size` access yields 272
reaching `demoSizeState2` and is idempotent there. -/
theorem c10_sizes_positive_memoization_sound_witness :
    (1 ≤ 144 ∧ compressedSizeMethod demoSizeState1
      = (.ok 144, demoSizeState1)) ∧
    (1 ≤ 272 ∧ uncompressedSizeMethod demoSizeState2
      = (.ok 272, demoSizeState2)) :=
  ⟨(c10_sizes_positive_memoization_sound demoBlockHeader (by decide)).2.1
      demoSizeState 144 demoSizeState1 rfl rfl,
   (c10_sizes_positive_memoization_sound demoBlockHeader (by decide)).2.2
      demoSizeState 272 demoSizeState2 rfl rfl⟩
